import Mathlib

/-!
Shallow embedding of the wandb_carbs reconciler (src/wandb_carbs.py).

Python dictionaries whose values are numbers or strings are embedded as
association lists of string keys with `Val` values; dictionary assignment
(`d[k] = v`) is embedded by `dinsert`, which updates an existing binding in
place and otherwise appends, exactly as a Python dict does.  Numeric values
are idealised as rationals (the Python floats of interest — integers and
powers of two — are exact).  The optimizer (`CARBS`) is treated as an opaque
collaborator: the reconciler's interaction with it is embedded as the list of
calls (`CarbsCall`) it makes.
-/

namespace WandbCarbsModel

/-- A value stored in a run's `config` or `summary` mapping: a number or a
string. -/
inductive Val where
  | num (q : ℚ)
  | str (s : String)
deriving DecidableEq, Repr

/-- Association list embedding of a Python dict with string keys. -/
abbrev AList (α : Type) : Type := List (String × α)

/-- Dict lookup: first (and, given `dinsert` discipline, only) binding. -/
def lookup {α : Type} : AList α → String → Option α
  | [], _ => none
  | kv :: rest, k => if kv.1 = k then some kv.2 else lookup rest k

/-- Python dict assignment `d[k] = v`: overwrite the binding in place when the
key is present, otherwise append the new binding. -/
def dinsert {α : Type} (m : AList α) (k : String) (v : α) : AList α :=
  if m.any (fun kv => kv.1 = k) then
    m.map (fun kv => if kv.1 = k then (k, v) else kv)
  else
    m ++ [(k, v)]

/-- Python `del d[k]` (on a dict known to hold the key): drop the binding. -/
def delKey {α : Type} (m : AList α) (k : String) : AList α :=
  m.filter (fun kv => kv.1 ≠ k)

/-- A carbs parameter space: `LogSpace`, `LogitSpace` or `LinearSpace` (the
latter with its `is_integer` flag), each carrying `min`/`max` bounds.  The
`other` constructor embeds a space value of any further class: the Python
`isinstance` chain in `_wandb_distribution` is open, so a space that is none
of the three recognised kinds can reach it. -/
inductive Space where
  | log (min max : ℚ)
  | logit (min max : ℚ)
  | linear (min max : ℚ) (is_integer : Bool)
  | other (min max : ℚ)
deriving DecidableEq, Repr

/-- The `min` bound carried by a space. -/
def Space.minBound : Space → ℚ
  | .log m _ => m
  | .logit m _ => m
  | .linear m _ _ => m
  | .other m _ => m

/-- The `max` bound carried by a space. -/
def Space.maxBound : Space → ℚ
  | .log _ m => m
  | .logit _ m => m
  | .linear _ m _ => m
  | .other _ m => m

/-- A carbs `Param`: name, space, and the `search_center` default used when a
run's config omits the parameter. -/
structure Param where
  name : String
  space : Space
  search_center : Val
deriving DecidableEq, Repr

/-- A ledger run record: its id, its published `config` mapping and its
`summary` mapping (which carries `carbs.state` and optionally
`carbs.objective` / `carbs.cost`). -/
structure Run where
  id : String
  config : AList Val
  summary : AList Val
deriving DecidableEq, Repr

/-- The record's `carbs.state` summary entry. -/
def stateVal (run : Run) : Option Val :=
  lookup run.summary "carbs.state"

/-- The dict comprehension in `WandbCarbs._suggestion_from_run`:
`{param.name: run.config.get(param.name, param.search_center) for param in
self._carbs.params}`. -/
def suggestion_params (params : List Param) (run : Run) : AList Val :=
  params.foldl
    (fun m p => dinsert m p.name ((lookup run.config p.name).getD p.search_center))
    []

/-- `WandbCarbs._suggestion_from_run`: the comprehension above followed by
`suggestion["suggestion_uuid"] = run.id`. -/
def suggestion_from_run (params : List Param) (run : Run) : AList Val :=
  dinsert (suggestion_params params run) "suggestion_uuid" (Val.str run.id)

/-- One call made into the CARBS optimizer during replay: either
`_remember_suggestion(suggestion, ..., run.id)` or
`observe(ObservationInParam(input, output, cost, is_failure))`. -/
inductive CarbsCall where
  | rememberSuggestion (input : AList Val) (runId : String)
  | observe (input : AList Val) (output : Val) (cost : Val) (is_failure : Bool)
deriving DecidableEq, Repr

/-- The `input` vector of a call. -/
def CarbsCall.input : CarbsCall → AList Val
  | .rememberSuggestion s _ => s
  | .observe s _ _ _ => s

/-- `WandbCarbs._update_carbs_from_run`, embedded as the list of optimizer
calls it makes for one record.  `sfr` is the dynamically dispatched
`self._suggestion_from_run` (the base class's or the `Pow2` override). -/
def update_carbs_from_run (sfr : Run → AList Val) (run : Run) : List CarbsCall :=
  if stateVal run = some (Val.str "initializing") then []
  else
    CarbsCall.rememberSuggestion (sfr run) run.id ::
      (if stateVal run = some (Val.str "running") then []
       else
         [CarbsCall.observe (sfr run)
            ((lookup run.summary "carbs.objective").getD (Val.num 0))
            ((lookup run.summary "carbs.cost").getD (Val.num 0))
            (decide (stateVal run = some (Val.str "failure")))])

/-- Number of `observe` calls in a call list. -/
def numObserveCalls : List CarbsCall → Nat
  | [] => 0
  | CarbsCall.observe _ _ _ _ :: rest => numObserveCalls rest + 1
  | _ :: rest => numObserveCalls rest

/-- Number of `_remember_suggestion` calls in a call list. -/
def numRememberCalls : List CarbsCall → Nat
  | [] => 0
  | CarbsCall.rememberSuggestion _ _ :: rest => numRememberCalls rest + 1
  | _ :: rest => numRememberCalls rest

/-- The `observe` calls in a call list. -/
def observeCalls (cs : List CarbsCall) : List CarbsCall :=
  cs.filter fun c =>
    match c with
    | CarbsCall.observe _ _ _ _ => true
    | _ => false

/-- The per-value encode step of `Pow2WandbCarbs._transform_suggestion`:
`suggestion[param.name] = 2 ** suggestion[param.name]`.  The internal value is
an integer exponent (a rational with denominator 1, coming from the
optimizer's integer space); it is read off as the numerator. -/
def pow2encode (k : ℤ) : ℚ :=
  (2 : ℚ) ^ k

/-- The per-value decode step of `Pow2WandbCarbs._suggestion_from_run`:
`int(math.log2(suggestion[param.name]))`.  Python's `int` truncates toward
zero, so the result is the floor of `log2` for values `≥ 1` and the ceiling
for values `< 1`; on exact powers of two (the only values the encoder
produces) both agree. -/
def pow2decode (q : ℚ) : ℤ :=
  if 1 ≤ q then Int.log 2 q else Int.clog 2 q

/-- `pow2encode` lifted to `Val`: numeric values hold integer exponents and
are encoded through their numerator; the source never reaches this transform
with a non-numeric value. -/
def pow2encodeVal : Val → Val
  | .num q => .num (pow2encode q.num)
  | v => v

/-- `pow2decode` lifted to `Val`. -/
def pow2decodeVal : Val → Val
  | .num q => .num ((pow2decode q : ℤ) : ℚ)
  | v => v

/-- `Pow2WandbCarbs._transform_suggestion`: for each param whose name is in
`pow2_params`, replace its entry by its power-of-two encoding.  The source
indexes `suggestion[param.name]` directly (raising `KeyError` when absent);
the `none` branch is unreachable for the suggestion mappings the class
builds, which bind every param. -/
def pow2_transform_suggestion (params : List Param) (pow2_params : List String)
    (s : AList Val) : AList Val :=
  params.foldl
    (fun m p =>
      if p.name ∈ pow2_params then
        match lookup m p.name with
        | some v => dinsert m p.name (pow2encodeVal v)
        | none => m
      else m)
    s

/-- `Pow2WandbCarbs._suggestion_from_run`: the base reconstruction followed by
the power-of-two decode of each `pow2_params` entry. -/
def pow2_suggestion_from_run (params : List Param) (pow2_params : List String)
    (run : Run) : AList Val :=
  params.foldl
    (fun m p =>
      if p.name ∈ pow2_params then
        match lookup m p.name with
        | some v => dinsert m p.name (pow2decodeVal v)
        | none => m
      else m)
    (suggestion_from_run params run)

/-- Outcome of a lifecycle operation on the worker's own summary mapping: the
`ok` flag is false when the operation's assertion fired (an `AssertionError`
aborting the caller), in which case `summary` is the mapping as the operation
left it. -/
structure StepResult where
  ok : Bool
  summary : AList Val
deriving DecidableEq, Repr

/-- The summary-facing part of `WandbCarbs.__init__`: assert that the run has
no `carbs.state` yet, then set it to `"initializing"` and, once the replay
and the worker's own suggestion are done, to `"running"`.  The assertion
precedes every update, so a failing construction leaves the summary
untouched. -/
def wandb_carbs_init (s : AList Val) : StepResult :=
  if (lookup s "carbs.state").isSome then ⟨false, s⟩
  else
    ⟨true,
      dinsert (dinsert s "carbs.state" (Val.str "initializing"))
        "carbs.state" (Val.str "running")⟩

/-- `WandbCarbs.record_observation`: unless `allow_update` is set, assert the
state is exactly `"running"` (a missing state key also aborts); then merge
`carbs.objective`, `carbs.cost` and `carbs.state = "success"` into the
summary. -/
def record_observation (s : AList Val) (objective cost : ℚ)
    (allow_update : Bool) : StepResult :=
  if allow_update = false ∧ lookup s "carbs.state" ≠ some (Val.str "running") then
    ⟨false, s⟩
  else
    ⟨true,
      dinsert
        (dinsert (dinsert s "carbs.objective" (Val.num objective))
          "carbs.cost" (Val.num cost))
        "carbs.state" (Val.str "success")⟩

/-- `WandbCarbs.record_failure`: unconditionally set `carbs.state` to
`"failure"`. -/
def record_failure (s : AList Val) : StepResult :=
  ⟨true, dinsert s "carbs.state" (Val.str "failure")⟩

/-- A heap of dict objects, for the aliasing behaviour of `suggest`:
references are indices into `cells`. -/
structure Heap where
  cells : List (AList Val)
deriving DecidableEq, Repr

/-- Allocate a fresh dict object holding `v`; returns its reference. -/
def Heap.alloc (h : Heap) (v : AList Val) : Nat × Heap :=
  (h.cells.length, ⟨h.cells ++ [v]⟩)

/-- Read the dict an existing reference points to. -/
def Heap.read (h : Heap) (r : Nat) : AList Val :=
  (h.cells[r]?).getD []

/-- Mutate the dict a reference points to (a caller writing through a
returned reference). -/
def Heap.write (h : Heap) (r : Nat) (v : AList Val) : Heap :=
  ⟨h.cells.set r v⟩

/-- The `WandbCarbs` object as `suggest` sees it: a reference to the stored
`self._suggestion` dict. -/
structure CarbsObj where
  suggestionRef : Nat
deriving DecidableEq, Repr

/-- `WandbCarbs.suggest`:
`return self._transform_suggestion(deepcopy(self._suggestion))` with the base
class's identity `_transform_suggestion` — allocate a fresh copy of the
stored suggestion and return a reference to it. -/
def suggest (o : CarbsObj) (h : Heap) : Nat × Heap :=
  h.alloc (h.read o.suggestionRef)

/-- The config published by `WandbCarbs.__init__` for the worker's own run:
`wandb_config = self._transform_suggestion(deepcopy(self._suggestion))`
followed by `del wandb_config["suggestion_uuid"]`, with the base class's
identity transform. -/
def published_config (suggestion : AList Val) : AList Val :=
  delKey suggestion "suggestion_uuid"

/-- `_wandb_distribution`: dispatch on the class of the param's space; the
`isinstance` chain has no `else`, so an unrecognised space falls through and
the Python function returns `None`. -/
def wandb_distribution (p : Param) : Option String :=
  match p.space with
  | .log _ _ => some "log_uniform_values"
  | .logit _ _ => some "uniform"
  | .linear _ _ i => some (if i then "int_uniform" else "uniform")
  | .other _ _ => none

/-- One entry of the sweep config's `parameters` dict. -/
structure SweepParamCfg where
  minBound : ℚ
  maxBound : ℚ
  distribution : Option String
deriving DecidableEq, Repr

/-- The `parameters` dict built by `_wandb_sweep_cfg_from_carbs_params`. -/
def sweep_cfg_parameters (carb_params : List Param) : AList SweepParamCfg :=
  carb_params.foldl
    (fun m p =>
      dinsert m p.name
        ⟨p.space.minBound, p.space.maxBound, wandb_distribution p⟩)
    []

/-- The full sweep configuration document. -/
structure SweepCfg where
  method : String
  metricGoal : String
  metricName : String
  sweepName : String
  parameters : AList SweepParamCfg
deriving DecidableEq, Repr

/-- `_wandb_sweep_cfg_from_carbs_params`. -/
def wandb_sweep_cfg_from_carbs_params (sweepName : String)
    (carb_params : List Param) : SweepCfg :=
  ⟨"bayes", "maximize", "eval_metric", sweepName, sweep_cfg_parameters carb_params⟩

/-- The parameter `x` with `search_center = 1` used by the spec's replay
scenarios. -/
def paramX : Param :=
  ⟨"x", Space.linear 0 10 false, Val.num 1⟩

/-- The power-of-two parameter `batch` of scenario D. -/
def paramBatch : Param :=
  ⟨"batch", Space.linear 0 10 true, Val.num 4⟩

/-- Scenario A record: `state = success`, `objective = 10`, `cost = 2`,
`config = {x: 4}`. -/
def runA : Run :=
  ⟨"run-a", [("x", Val.num 4)],
    [("carbs.state", Val.str "success"), ("carbs.objective", Val.num 10),
      ("carbs.cost", Val.num 2)]⟩

/-- Scenario B record: `state = failure`, no objective or cost keys,
`config = {x: 4}`. -/
def runB : Run :=
  ⟨"run-b", [("x", Val.num 4)], [("carbs.state", Val.str "failure")]⟩

/-- Scenario C record: `state = running`, `config = {x: 8}`. -/
def runC : Run :=
  ⟨"run-c", [("x", Val.num 8)], [("carbs.state", Val.str "running")]⟩

/-- Scenario D record: `state = running`, `config = {batch: 32}`. -/
def runD : Run :=
  ⟨"run-d", [("batch", Val.num 32)], [("carbs.state", Val.str "running")]⟩

/-- A record whose config is empty (a crashed run that never committed its
config). -/
def runEmptyConfig : Run :=
  ⟨"run-e", [], [("carbs.state", Val.str "running")]⟩

/-- The stored suggestion of scenario D: internal `batch` exponent `5`. -/
def suggestionBatch5 : AList Val :=
  [("batch", Val.num 5), ("suggestion_uuid", Val.str "run-self")]

/-- A worker summary already in the terminal `success` state. -/
def summarySuccess : AList Val :=
  [("carbs.state", Val.str "success")]

/-- A one-cell heap whose cell 0 holds the scenario-D stored suggestion. -/
def heapFix : Heap :=
  ⟨[suggestionBatch5]⟩

/-- An object whose stored suggestion lives at heap cell 0. -/
def objFix : CarbsObj :=
  ⟨0⟩

/-- A parameter whose space is none of the three recognised kinds. -/
def paramOther : Param :=
  ⟨"w", Space.other 0 1, Val.num 0⟩

/-! Basic facts about `lookup`, `dinsert`, `delKey` and folds of
key-local updates. -/

theorem lookup_map_overwrite {α : Type} (k : String) (v : α) (m : AList α)
    (h : m.any (fun kv => kv.1 = k) = true) :
    lookup (m.map (fun kv => if kv.1 = k then (k, v) else kv)) k = some v := by
  induction m with
  | nil => simp at h
  | cons a rest ih =>
    by_cases ha : a.1 = k
    · simp [lookup, ha]
    · have hrest : rest.any (fun kv => kv.1 = k) = true := by
        simpa [List.any_cons, ha] using h
      simp only [List.map_cons, if_neg ha, lookup]
      exact ih hrest

theorem lookup_map_overwrite_ne {α : Type} (k k₁ : String) (v : α)
    (hne : k₁ ≠ k) (m : AList α) :
    lookup (m.map (fun kv => if kv.1 = k then (k, v) else kv)) k₁ = lookup m k₁ := by
  induction m with
  | nil => rfl
  | cons a rest ih =>
    by_cases ha : a.1 = k
    · simp only [List.map_cons, if_pos ha, lookup]
      rw [if_neg (fun hh : k = k₁ => hne hh.symm),
        if_neg (fun hh : a.1 = k₁ => hne (ha ▸ hh).symm)]
      exact ih
    · simp only [List.map_cons, if_neg ha, lookup]
      by_cases hk₁ : a.1 = k₁
      · rw [if_pos hk₁, if_pos hk₁]
      · rw [if_neg hk₁, if_neg hk₁]
        exact ih

theorem lookup_append_not_mem {α : Type} (k : String) (v : α) (m : AList α)
    (h : m.any (fun kv => kv.1 = k) = false) :
    lookup (m ++ [(k, v)]) k = some v := by
  induction m with
  | nil => simp [lookup]
  | cons a rest ih =>
    have ha : ¬(a.1 = k) := by
      intro hh
      simp [List.any_cons, hh] at h
    have hrest : rest.any (fun kv => kv.1 = k) = false := by
      simpa [List.any_cons, ha] using h
    simp only [List.cons_append, lookup, if_neg ha]
    exact ih hrest

theorem lookup_append_ne {α : Type} (k k₁ : String) (v : α) (hne : k₁ ≠ k)
    (m : AList α) :
    lookup (m ++ [(k, v)]) k₁ = lookup m k₁ := by
  induction m with
  | nil =>
    simp only [List.nil_append, lookup]
    rw [if_neg (fun hh : k = k₁ => hne hh.symm)]
  | cons a rest ih =>
    simp only [List.cons_append, lookup]
    by_cases hk₁ : a.1 = k₁
    · rw [if_pos hk₁, if_pos hk₁]
    · rw [if_neg hk₁, if_neg hk₁]
      exact ih

theorem lookup_dinsert_self {α : Type} (m : AList α) (k : String) (v : α) :
    lookup (dinsert m k v) k = some v := by
  unfold dinsert
  split
  · exact lookup_map_overwrite k v m (by assumption)
  · rename_i hany
    exact lookup_append_not_mem k v m (Bool.eq_false_iff.mpr hany)

theorem lookup_dinsert_ne {α : Type} (m : AList α) (k k₁ : String) (v : α)
    (hne : k₁ ≠ k) :
    lookup (dinsert m k v) k₁ = lookup m k₁ := by
  unfold dinsert
  split
  · exact lookup_map_overwrite_ne k k₁ v hne m
  · exact lookup_append_ne k k₁ v hne m

theorem lookup_delKey_self {α : Type} (m : AList α) (k : String) :
    lookup (delKey m k) k = none := by
  induction m with
  | nil => rfl
  | cons a rest ih =>
    unfold delKey at ih ⊢
    by_cases ha : a.1 = k
    · simpa [List.filter_cons, ha] using ih
    · simpa [List.filter_cons, ha, lookup] using ih

theorem lookup_foldl_of_not_mem {α β : Type} (f : AList α → β → AList α)
    (key : β → String)
    (hne : ∀ (m : AList α) (b : β) (k : String), k ≠ key b →
      lookup (f m b) k = lookup m k)
    (l : List β) (acc : AList α) (k : String) (hk : k ∉ l.map key) :
    lookup (l.foldl f acc) k = lookup acc k := by
  induction l generalizing acc with
  | nil => rfl
  | cons b rest ih =>
    simp only [List.map_cons, List.mem_cons, not_or] at hk
    rw [List.foldl_cons, ih (f acc b) hk.2, hne acc b k hk.1]

theorem lookup_foldl_of_mem {α β : Type} (f : AList α → β → AList α)
    (key : β → String) (g : Option α → β → Option α)
    (hne : ∀ (m : AList α) (b : β) (k : String), k ≠ key b →
      lookup (f m b) k = lookup m k)
    (hself : ∀ (m : AList α) (b : β), lookup (f m b) (key b) = g (lookup m (key b)) b)
    (l : List β) (b : β) (acc : AList α)
    (hmem : b ∈ l) (hnd : (l.map key).Nodup) :
    lookup (l.foldl f acc) (key b) = g (lookup acc (key b)) b := by
  induction l generalizing acc with
  | nil => cases hmem
  | cons x rest ih =>
    simp only [List.map_cons, List.nodup_cons] at hnd
    rcases List.mem_cons.mp hmem with hb | hb
    · subst hb
      rw [List.foldl_cons,
        lookup_foldl_of_not_mem f key hne rest (f acc b) (key b) hnd.1,
        hself acc b]
    · have hkey : key b ≠ key x := fun hkk =>
        hnd.1 (hkk ▸ List.mem_map_of_mem key hb)
      rw [List.foldl_cons, ih (f acc x) hb hnd.2, hne acc x (key b) hkey]

/-! Facts about the reconstruction of a suggestion from a run record. -/

theorem lookup_suggestion_params {params : List Param} {run : Run} {p : Param}
    (hmem : p ∈ params) (hnd : (params.map Param.name).Nodup) :
    lookup (suggestion_params params run) p.name =
      some ((lookup run.config p.name).getD p.search_center) := by
  unfold suggestion_params
  have h := lookup_foldl_of_mem
    (fun m q => dinsert m q.name ((lookup run.config q.name).getD q.search_center))
    Param.name
    (fun _ q => some ((lookup run.config q.name).getD q.search_center))
    (fun m q k hk => lookup_dinsert_ne m q.name k _ hk)
    (fun m q => lookup_dinsert_self m q.name _)
    params p [] hmem hnd
  exact h

theorem lookup_suggestion_from_run_uuid (params : List Param) (run : Run) :
    lookup (suggestion_from_run params run) "suggestion_uuid" =
      some (Val.str run.id) :=
  lookup_dinsert_self _ _ _

theorem lookup_suggestion_from_run_param {params : List Param} {run : Run}
    {p : Param} (hmem : p ∈ params) (hnd : (params.map Param.name).Nodup)
    (hp : p.name ≠ "suggestion_uuid") :
    lookup (suggestion_from_run params run) p.name =
      some ((lookup run.config p.name).getD p.search_center) := by
  unfold suggestion_from_run
  rw [lookup_dinsert_ne _ _ _ _ hp]
  exact lookup_suggestion_params hmem hnd

theorem lookup_pow2_suggestion_from_run {params : List Param}
    {pow2_params : List String} {run : Run} {p : Param}
    (hmem : p ∈ params) (hnd : (params.map Param.name).Nodup) :
    lookup (pow2_suggestion_from_run params pow2_params run) p.name =
      if p.name ∈ pow2_params then
        Option.map pow2decodeVal (lookup (suggestion_from_run params run) p.name)
      else lookup (suggestion_from_run params run) p.name := by
  unfold pow2_suggestion_from_run
  exact lookup_foldl_of_mem _ Param.name
    (fun o q => if q.name ∈ pow2_params then Option.map pow2decodeVal o else o)
    (fun m q k hk => by
      by_cases hq : q.name ∈ pow2_params
      · simp only [if_pos hq]
        cases hl : lookup m q.name with
        | some v => exact lookup_dinsert_ne m q.name k _ hk
        | none => rfl
      · simp only [if_neg hq])
    (fun m q => by
      by_cases hq : q.name ∈ pow2_params
      · simp only [if_pos hq]
        cases hl : lookup m q.name with
        | some v => simp [lookup_dinsert_self]
        | none => simp [hl]
      · simp only [if_neg hq])
    params p _ hmem hnd

/-- C1: during replay, a ledger record in lifecycle state `running` makes the
reconciler register the reconstructed parameter vector with the optimizer as
a pending suggestion (one `_remember_suggestion` call, keyed by the record's
id), and submit no observation for it. -/
theorem running_record_registers_pending_only (sfr : Run → AList Val)
    (run : Run) (h : stateVal run = some (Val.str "running")) :
    update_carbs_from_run sfr run =
      [CarbsCall.rememberSuggestion (sfr run) run.id] := by
  simp [update_carbs_from_run, h]

/-- Witness for C1: scenario C, a record in state `running` with
`config = {x: 8}`; the replay makes exactly the one `_remember_suggestion`
call carrying the reconstructed vector, and no `observe` call. -/
theorem running_record_registers_pending_only_witness :
    update_carbs_from_run (suggestion_from_run [paramX]) runC =
      [CarbsCall.rememberSuggestion
        [("x", Val.num 8), ("suggestion_uuid", Val.str "run-c")] "run-c"] := by
  have h := running_record_registers_pending_only
    (suggestion_from_run [paramX]) runC (by decide)
  rw [h]
  decide

/-- Counterexample to C2: for the concrete scenario-A record (state
`success`), one reconciliation step makes two optimizer calls — a
`_remember_suggestion` call and an `observe` call — so it is false that a
record gets at most one of the two. -/
theorem success_record_gets_remember_and_observe :
    ¬ (numObserveCalls (update_carbs_from_run (suggestion_from_run [paramX]) runA) +
       numRememberCalls (update_carbs_from_run (suggestion_from_run [paramX]) runA)
         ≤ 1) := by
  decide

/-- C2 (amended): for every ledger record processed in one reconciliation
pass, the reconciler makes at most one `observe` call and at most one
`_remember_suggestion` call for that record (a finalized record receives
both: its registration followed by its observation). -/
theorem replay_at_most_one_observe_and_one_remember (sfr : Run → AList Val)
    (run : Run) :
    numObserveCalls (update_carbs_from_run sfr run) ≤ 1 ∧
    numRememberCalls (update_carbs_from_run sfr run) ≤ 1 := by
  unfold update_carbs_from_run
  split
  · exact ⟨by simp [numObserveCalls], by simp [numRememberCalls]⟩
  · split
    · exact ⟨by simp [numObserveCalls, numRememberCalls],
        by simp [numObserveCalls, numRememberCalls]⟩
    · exact ⟨by simp [numObserveCalls, numRememberCalls],
        by simp [numObserveCalls, numRememberCalls]⟩

/-- C3: a ledger record in state `success` or `failure` contributes exactly
one observation, whose input is the reconstructed parameter vector, whose
output and cost default to 0 when the summary omits them, and whose
`is_failure` flag is true exactly when the state is `failure`. -/
theorem finalized_record_single_observation (sfr : Run → AList Val) (run : Run) :
    (stateVal run = some (Val.str "success") →
      observeCalls (update_carbs_from_run sfr run) =
        [CarbsCall.observe (sfr run)
          ((lookup run.summary "carbs.objective").getD (Val.num 0))
          ((lookup run.summary "carbs.cost").getD (Val.num 0)) false]) ∧
    (stateVal run = some (Val.str "failure") →
      observeCalls (update_carbs_from_run sfr run) =
        [CarbsCall.observe (sfr run)
          ((lookup run.summary "carbs.objective").getD (Val.num 0))
          ((lookup run.summary "carbs.cost").getD (Val.num 0)) true]) := by
  constructor <;> intro h <;> simp [update_carbs_from_run, observeCalls, h]

/-- Witness for C3: scenario B, a record in state `failure` with
`config = {x: 4}` and no objective or cost keys; the replay observes the
reconstructed vector with output 0, cost 0 and `is_failure = True`. -/
theorem finalized_record_single_observation_witness :
    observeCalls (update_carbs_from_run (suggestion_from_run [paramX]) runB) =
      [CarbsCall.observe
        [("x", Val.num 4), ("suggestion_uuid", Val.str "run-b")]
        (Val.num 0) (Val.num 0) true] := by
  have h := (finalized_record_single_observation (suggestion_from_run [paramX]) runB).2
    (by decide)
  rw [h]
  decide

/-- C4: the power-of-two codec round-trips exactly on every integer exponent
`k` — `pow2decode (pow2encode k) = k` — and in particular internal value 5
encodes to 32 (`_transform_suggestion` on the stored suggestion of scenario
D) while a config value 32 decodes back to 5 (`_suggestion_from_run` on the
scenario-D record). -/
theorem pow2_codec_roundtrip :
    (∀ k : ℤ, pow2decode (pow2encode k) = k) ∧
    pow2encode 5 = 32 ∧
    pow2decode 32 = 5 ∧
    lookup (pow2_transform_suggestion [paramBatch] ["batch"] suggestionBatch5)
        "batch" = some (Val.num 32) ∧
    lookup (pow2_suggestion_from_run [paramBatch] ["batch"] runD) "batch" =
      some (Val.num 5) := by
  have hrt : ∀ k : ℤ, pow2decode (pow2encode k) = k := by
    intro k
    unfold pow2decode pow2encode
    split
    · exact Int.log_zpow (by norm_num) k
    · exact Int.clog_zpow (by norm_num) k
  have henc : pow2encode 5 = 32 := by
    unfold pow2encode
    norm_num
  have hdec : pow2decode 32 = 5 := by
    have h32 : (32 : ℚ) = pow2encode 5 := by rw [henc]
    rw [h32, hrt 5]
  refine ⟨hrt, henc, hdec, ?_, ?_⟩
  · have hstep : pow2_transform_suggestion [paramBatch] ["batch"] suggestionBatch5 =
        dinsert suggestionBatch5 "batch" (pow2encodeVal (Val.num 5)) := by
      simp [pow2_transform_suggestion, paramBatch, suggestionBatch5, lookup]
    have hval : pow2encodeVal (Val.num 5) = Val.num 32 := by
      have h5 : (5 : ℚ).num = (5 : ℤ) := by decide
      show Val.num (pow2encode (5 : ℚ).num) = Val.num 32
      rw [h5, henc]
    rw [hstep, hval]
    exact lookup_dinsert_self _ _ _
  · have hbase : suggestion_from_run [paramBatch] runD =
        [("batch", Val.num 32), ("suggestion_uuid", Val.str "run-d")] := by
      decide
    have hstep : pow2_suggestion_from_run [paramBatch] ["batch"] runD =
        dinsert [("batch", Val.num 32), ("suggestion_uuid", Val.str "run-d")]
          "batch" (pow2decodeVal (Val.num 32)) := by
      unfold pow2_suggestion_from_run
      rw [hbase]
      simp [paramBatch, lookup]
    have hval : pow2decodeVal (Val.num 32) = Val.num 5 := by
      show Val.num ((pow2decode (32 : ℚ) : ℤ) : ℚ) = Val.num 5
      rw [hdec, show ((5 : ℤ) : ℚ) = (5 : ℚ) by norm_num]
    rw [hstep, hval]
    exact lookup_dinsert_self _ _ _

/-- C5: a registry parameter absent from a record's config is reconstructed
as its `search_center` (and, for a power-of-two parameter, as the codec's
decode of that substituted value); the reconstruction is total on partial
configs. -/
theorem missing_param_defaults_to_search_center (params : List Param)
    (pow2_params : List String) (run : Run) (p : Param)
    (hmem : p ∈ params) (hnd : (params.map Param.name).Nodup)
    (hp : p.name ≠ "suggestion_uuid")
    (habs : lookup run.config p.name = none) :
    lookup (suggestion_from_run params run) p.name = some p.search_center ∧
    (p.name ∈ pow2_params →
      lookup (pow2_suggestion_from_run params pow2_params run) p.name =
        some (pow2decodeVal p.search_center)) := by
  have hbase : lookup (suggestion_from_run params run) p.name =
      some p.search_center := by
    rw [lookup_suggestion_from_run_param hmem hnd hp, habs]
    rfl
  refine ⟨hbase, fun hpow => ?_⟩
  rw [lookup_pow2_suggestion_from_run hmem hnd, if_pos hpow, hbase]
  rfl

/-- Witness for C5: the record with an empty config reconstructs `x` as its
`search_center = 1`; with `x` flagged power-of-two, the decode step is
applied to the substituted value. -/
theorem missing_param_defaults_to_search_center_witness :
    lookup (suggestion_from_run [paramX] runEmptyConfig) "x" =
      some (Val.num 1) ∧
    ("x" ∈ ["x"] →
      lookup (pow2_suggestion_from_run [paramX] ["x"] runEmptyConfig) "x" =
        some (pow2decodeVal (Val.num 1))) :=
  missing_param_defaults_to_search_center [paramX] ["x"] runEmptyConfig paramX
    (by decide) (by decide) (by decide) (by decide)

/-! Facts about the heap model of dict objects. -/

theorem read_alloc_self (h : Heap) (c : AList Val) :
    Heap.read (h.alloc c).2 (h.alloc c).1 = c := by
  unfold Heap.alloc Heap.read
  simp [List.getElem?_concat_length]

theorem read_alloc_old (h : Heap) (c : AList Val) (r : Nat)
    (hr : r < h.cells.length) :
    Heap.read (h.alloc c).2 r = Heap.read h r := by
  unfold Heap.alloc Heap.read
  simp [List.getElem?_append_left hr]

theorem read_write_ne (h : Heap) (r₁ r₂ : Nat) (v : AList Val)
    (hne : r₂ ≠ r₁) :
    Heap.read (h.write r₁ v) r₂ = Heap.read h r₂ := by
  unfold Heap.write Heap.read
  rw [List.getElem?_set_ne (fun hh => hne hh.symm)]

/-- C6: construction aborts (assertion failure) exactly when the worker's own
record already carries a `carbs.state`, and `record_observation` without the
override flag aborts exactly when the current state is not `running`; in both
failure cases the summary is left unchanged. -/
theorem construction_and_observation_guards (s : AList Val)
    (objective cost : ℚ) :
    ((wandb_carbs_init s).ok = false ↔ (lookup s "carbs.state").isSome) ∧
    ((wandb_carbs_init s).ok = false → (wandb_carbs_init s).summary = s) ∧
    ((record_observation s objective cost false).ok = false ↔
      ¬ lookup s "carbs.state" = some (Val.str "running")) ∧
    ((record_observation s objective cost false).ok = false →
      (record_observation s objective cost false).summary = s) := by
  unfold wandb_carbs_init record_observation
  refine ⟨?_, ?_, ?_, ?_⟩
  · split <;> simp_all
  · split <;> simp_all
  · split <;> simp_all
  · split <;> simp_all

/-- Witness for C6: a run whose summary already holds `carbs.state =
"success"` — construction fails with the summary untouched, and an
un-overridden observation fails with the summary untouched. -/
theorem construction_and_observation_guards_witness :
    ((wandb_carbs_init summarySuccess).ok = false ↔
      (lookup summarySuccess "carbs.state").isSome) ∧
    ((wandb_carbs_init summarySuccess).ok = false →
      (wandb_carbs_init summarySuccess).summary = summarySuccess) ∧
    ((record_observation summarySuccess 1 1 false).ok = false ↔
      ¬ lookup summarySuccess "carbs.state" = some (Val.str "running")) ∧
    ((record_observation summarySuccess 1 1 false).ok = false →
      (record_observation summarySuccess 1 1 false).summary = summarySuccess) :=
  construction_and_observation_guards summarySuccess 1 1

/-- Counterexample to C7: on a record already in the terminal state
`success`, `record_failure` neither fails nor leaves the state unchanged —
it succeeds and rewrites the state to `failure`. -/
theorem record_failure_rewrites_terminal_state :
    ¬ ((record_failure summarySuccess).ok = false ∨
        lookup (record_failure summarySuccess).summary "carbs.state" =
          some (Val.str "success")) ∧
    lookup (record_failure summarySuccess).summary "carbs.state" =
      some (Val.str "failure") := by
  decide

/-- C7 (amended): on a record in a terminal state (`success` or `failure`),
`record_observation` without the override flag fails and leaves the summary
unchanged, but `record_failure` is unguarded: it succeeds from any state and
overwrites the state with `failure`, even rewriting a terminal `success`. -/
theorem terminal_state_guards (s : AList Val) (objective cost : ℚ)
    (hterm : lookup s "carbs.state" = some (Val.str "success") ∨
      lookup s "carbs.state" = some (Val.str "failure")) :
    (record_observation s objective cost false).ok = false ∧
    (record_observation s objective cost false).summary = s ∧
    (record_failure s).ok = true ∧
    lookup (record_failure s).summary "carbs.state" =
      some (Val.str "failure") := by
  have hne : lookup s "carbs.state" ≠ some (Val.str "running") := by
    rcases hterm with h | h <;> rw [h] <;> decide
  unfold record_observation record_failure
  rw [if_pos ⟨rfl, hne⟩]
  exact ⟨rfl, rfl, rfl, lookup_dinsert_self s _ _⟩

/-- Witness for C7 (amended): from the terminal summary
`carbs.state = "success"`, an un-overridden observation fails without
touching the summary while `record_failure` succeeds and rewrites the state
to `failure`. -/
theorem terminal_state_guards_witness :
    (record_observation summarySuccess 3 4 false).ok = false ∧
    (record_observation summarySuccess 3 4 false).summary = summarySuccess ∧
    (record_failure summarySuccess).ok = true ∧
    lookup (record_failure summarySuccess).summary "carbs.state" =
      some (Val.str "failure") :=
  terminal_state_guards summarySuccess 3 4 (Or.inl (by decide))

/-- C8: every `suggest()` call returns a mapping equal to every other call's
result (the stored suggestion's content), and writing through a mapping
returned by `suggest()` does not change what any later `suggest()` call
returns — each call hands out a fresh copy. -/
theorem suggest_returns_fresh_equal_copies (o : CarbsObj) (h : Heap)
    (v : AList Val) (href : o.suggestionRef < h.cells.length) :
    Heap.read (suggest o h).2 (suggest o h).1 = Heap.read h o.suggestionRef ∧
    Heap.read (suggest o (suggest o h).2).2 (suggest o (suggest o h).2).1 =
      Heap.read h o.suggestionRef ∧
    Heap.read (suggest o (Heap.write (suggest o h).2 (suggest o h).1 v)).2
        (suggest o (Heap.write (suggest o h).2 (suggest o h).1 v)).1 =
      Heap.read h o.suggestionRef := by
  have conj1 : Heap.read (suggest o h).2 (suggest o h).1 =
      Heap.read h o.suggestionRef :=
    read_alloc_self h _
  have hread1 : Heap.read (suggest o h).2 o.suggestionRef =
      Heap.read h o.suggestionRef :=
    read_alloc_old h _ o.suggestionRef href
  have conj2 : Heap.read (suggest o (suggest o h).2).2
      (suggest o (suggest o h).2).1 = Heap.read h o.suggestionRef := by
    have e := read_alloc_self (suggest o h).2
      (Heap.read (suggest o h).2 o.suggestionRef)
    rw [show suggest o (suggest o h).2 =
      ((suggest o h).2).alloc (Heap.read (suggest o h).2 o.suggestionRef)
      from rfl, e, hread1]
  have hr1 : (suggest o h).1 = h.cells.length := rfl
  have hwne : o.suggestionRef ≠ (suggest o h).1 := by
    rw [hr1]
    omega
  have hreadw :
      Heap.read (Heap.write (suggest o h).2 (suggest o h).1 v) o.suggestionRef =
        Heap.read h o.suggestionRef := by
    rw [read_write_ne _ _ _ _ hwne]
    exact hread1
  have conj3 : Heap.read
      (suggest o (Heap.write (suggest o h).2 (suggest o h).1 v)).2
      (suggest o (Heap.write (suggest o h).2 (suggest o h).1 v)).1 =
      Heap.read h o.suggestionRef := by
    have e := read_alloc_self (Heap.write (suggest o h).2 (suggest o h).1 v)
      (Heap.read (Heap.write (suggest o h).2 (suggest o h).1 v) o.suggestionRef)
    rw [show suggest o (Heap.write (suggest o h).2 (suggest o h).1 v) =
      (Heap.write (suggest o h).2 (suggest o h).1 v).alloc
        (Heap.read (Heap.write (suggest o h).2 (suggest o h).1 v)
          o.suggestionRef) from rfl, e, hreadw]
  exact ⟨conj1, conj2, conj3⟩

/-- Witness for C8: a concrete one-cell heap holding the stored suggestion;
two `suggest` calls agree with the stored content, also after the first
returned copy is overwritten with the empty dict. -/
theorem suggest_returns_fresh_equal_copies_witness :
    Heap.read (suggest objFix heapFix).2 (suggest objFix heapFix).1 =
      Heap.read heapFix objFix.suggestionRef ∧
    Heap.read (suggest objFix (suggest objFix heapFix).2).2
        (suggest objFix (suggest objFix heapFix).2).1 =
      Heap.read heapFix objFix.suggestionRef ∧
    Heap.read (suggest objFix
        (Heap.write (suggest objFix heapFix).2 (suggest objFix heapFix).1 [])).2
        (suggest objFix
          (Heap.write (suggest objFix heapFix).2 (suggest objFix heapFix).1 [])).1 =
      Heap.read heapFix objFix.suggestionRef :=
  suggest_returns_fresh_equal_copies objFix heapFix [] (by decide)

/-- C9: the vector reconstructed from a ledger record binds
`suggestion_uuid` to the record's id; every optimizer call made for the
record (remember or observe) carries that vector as its input; the config
the worker publishes for its own run has the `suggestion_uuid` key deleted;
and `suggest()` still returns a mapping that carries the key. -/
theorem suggestion_uuid_bookkeeping (params : List Param) (run : Run)
    (s : AList Val) (u : Val) (o : CarbsObj) (h : Heap)
    (hu : lookup s "suggestion_uuid" = some u)
    (hcontent : Heap.read h o.suggestionRef = s) :
    lookup (suggestion_from_run params run) "suggestion_uuid" =
      some (Val.str run.id) ∧
    (∀ c ∈ update_carbs_from_run (suggestion_from_run params) run,
      CarbsCall.input c = suggestion_from_run params run) ∧
    lookup (published_config s) "suggestion_uuid" = none ∧
    lookup (Heap.read (suggest o h).2 (suggest o h).1) "suggestion_uuid" =
      some u := by
  refine ⟨lookup_suggestion_from_run_uuid params run, ?_, ?_, ?_⟩
  · intro c hc
    unfold update_carbs_from_run at hc
    split at hc
    · cases hc
    · split at hc
      · simp only [List.mem_singleton] at hc
        subst hc
        rfl
      · simp only [List.mem_cons, List.not_mem_nil, or_false] at hc
        rcases hc with hc | hc <;> subst hc <;> rfl
  · exact lookup_delKey_self s "suggestion_uuid"
  · have e := read_alloc_self h (Heap.read h o.suggestionRef)
    rw [show suggest o h = h.alloc (Heap.read h o.suggestionRef) from rfl, e,
      hcontent]
    exact hu

/-- Witness for C9: the scenario-C record and a concrete heap whose stored
suggestion is the scenario-D suggestion (which carries
`suggestion_uuid = "run-self"`). -/
theorem suggestion_uuid_bookkeeping_witness :
    lookup (suggestion_from_run [paramX] runC) "suggestion_uuid" =
      some (Val.str "run-c") ∧
    (∀ c ∈ update_carbs_from_run (suggestion_from_run [paramX]) runC,
      CarbsCall.input c = suggestion_from_run [paramX] runC) ∧
    lookup (published_config suggestionBatch5) "suggestion_uuid" = none ∧
    lookup (Heap.read (suggest objFix heapFix).2 (suggest objFix heapFix).1)
        "suggestion_uuid" = some (Val.str "run-self") :=
  suggestion_uuid_bookkeeping [paramX] runC suggestionBatch5
    (Val.str "run-self") objFix heapFix (by decide) (by decide)

/-- C10: a parameter whose space is none of `LogSpace`, `LogitSpace` or
`LinearSpace` gets no distribution — `_wandb_distribution` returns `None`
instead of failing — and the sweep config still carries an entry for the
parameter, with `distribution = None`. -/
theorem unrecognized_space_distribution_none (sweepName : String)
    (carb_params : List Param) (p : Param) (minB maxB : ℚ)
    (hmem : p ∈ carb_params) (hnd : (carb_params.map Param.name).Nodup)
    (hsp : p.space = Space.other minB maxB) :
    wandb_distribution p = none ∧
    lookup (wandb_sweep_cfg_from_carbs_params sweepName carb_params).parameters
        p.name = some ⟨minB, maxB, none⟩ := by
  have hdist : wandb_distribution p = none := by
    simp [wandb_distribution, hsp]
  refine ⟨hdist, ?_⟩
  have h := lookup_foldl_of_mem
    (fun m q =>
      dinsert m q.name
        (⟨q.space.minBound, q.space.maxBound, wandb_distribution q⟩ : SweepParamCfg))
    Param.name
    (fun _ q =>
      some
        (⟨q.space.minBound, q.space.maxBound, wandb_distribution q⟩ : SweepParamCfg))
    (fun m q k hk => lookup_dinsert_ne m q.name k _ hk)
    (fun m q => lookup_dinsert_self m q.name _)
    carb_params p [] hmem hnd
  rw [show (wandb_sweep_cfg_from_carbs_params sweepName carb_params).parameters =
    sweep_cfg_parameters carb_params from rfl]
  unfold sweep_cfg_parameters
  rw [h]
  show some
      (⟨p.space.minBound, p.space.maxBound, wandb_distribution p⟩ : SweepParamCfg) =
    some ⟨minB, maxB, none⟩
  rw [hdist, hsp]
  rfl

/-- Witness for C10: the parameter `w` with an unrecognised space kind and
bounds 0 and 1 — the emitted sweep entry is present with
`distribution = None`. -/
theorem unrecognized_space_distribution_none_witness :
    wandb_distribution paramOther = none ∧
    lookup (wandb_sweep_cfg_from_carbs_params "sweep" [paramOther]).parameters
        "w" = some ⟨0, 1, none⟩ :=
  unrecognized_space_distribution_none "sweep" [paramOther] paramOther 0 1
    (by decide) (by decide) (by decide)

end WandbCarbsModel
